import Mathlib

/-
Verification of the Bernese German word clock core (src/word_grid.py) against
its natural-language specification.  The module-level tables GRID, WORDS and
HOUR_WORDS and the three functions get_words_for_time, get_minute_dots and
get_lit_positions are embedded below.  Python integers are modelled as Int;
the Python operators // and % agree with Int division and modulus here
because every divisor in the source is the positive literal 5 or 12 and
Python floor division by a positive divisor coincides with euclidean
division.  Python dictionary subscripting, which raises KeyError on a
missing key, is modelled as an Option-valued association-list lookup.
-/

namespace WordGrid

/-- Embedding of GRID (src/word_grid.py lines 9-20): the 11x10 letter grid,
one string per row. -/
def GRID : List String := [
  "ESKISCHAFÜF",
  "VIERTUBFZÄÄ",
  "ZWÄNZGSIVOR",
  "ABOHAUBIEGE",
  "EISZWÖISDRÜ",
  "VIERIFÜFIQT",
  "SÄCHSISIBNI",
  "ACHTINÜNIEL",
  "ZÄNIERBÖUFI",
  "ZWÖUFINAUHR"]

/-- Embedding of WORDS (src/word_grid.py lines 23-55): word key to
span (row, start_col, end_col), end inclusive, in source order. -/
def WORDS : List (String × Nat × Nat × Nat) := [
  ("ES", 0, 0, 1),
  ("ISCH", 0, 3, 6),
  ("FÜF", 0, 8, 10),
  ("ZÄÄ", 1, 8, 10),
  ("VIERT", 1, 0, 4),
  ("ZWÄNZG", 2, 0, 5),
  ("VOR", 2, 8, 10),
  ("AB", 3, 0, 1),
  ("HAUBI", 3, 3, 7),
  ("EIS", 4, 0, 2),
  ("ZWÖI", 4, 3, 6),
  ("DRÜ", 4, 8, 10),
  ("VIERI", 5, 0, 4),
  ("FÜFI", 5, 5, 8),
  ("SÄCHSI", 6, 0, 5),
  ("SIBNI", 6, 6, 10),
  ("ACHTI", 7, 0, 4),
  ("NÜNI", 7, 5, 8),
  ("ZÄNI", 8, 0, 3),
  ("ÖUFI", 8, 7, 10),
  ("ZWÖUFI", 9, 0, 5),
  ("UHR", 9, 8, 10)]

/-- Embedding of HOUR_WORDS (src/word_grid.py lines 58-71): hour number
1 to 12 to word key. -/
def HOUR_WORDS : List (Int × String) := [
  (1, "EIS"),
  (2, "ZWÖI"),
  (3, "DRÜ"),
  (4, "VIERI"),
  (5, "FÜFI"),
  (6, "SÄCHSI"),
  (7, "SIBNI"),
  (8, "ACHTI"),
  (9, "NÜNI"),
  (10, "ZÄNI"),
  (11, "ÖUFI"),
  (12, "ZWÖUFI")]

/-- Embedding of the 12-hour conversion in get_words_for_time
(src/word_grid.py lines 85-88): hour_12 = hour % 12, then 0 becomes 12. -/
def hour_12 (hour : Int) : Int :=
  if hour % 12 = 0 then 12 else hour % 12

/-- Embedding of the display-hour computation in get_words_for_time
(src/word_grid.py lines 96-103): for interval at least 5 the next hour is
(hour_12 % 12) + 1, reset to 12 if that is 0 (a branch that never fires);
otherwise hour_12 itself. -/
def display_hour (h12 interval : Int) : Int :=
  if 5 ≤ interval then
    if h12 % 12 + 1 = 0 then 12 else h12 % 12 + 1
  else h12

/-- Embedding of get_words_for_time (src/word_grid.py lines 74-132).
Each branch of the Python elif chain appends its words to the initial
list ES, ISCH and returns; dictionary access into HOUR_WORDS is an
Option-valued lookup. -/
def get_words_for_time (hour minute : Int) : Option (List String) :=
  let h12 := hour_12 hour
  let interval := minute / 5
  let dh := display_hour h12 interval
  if interval = 0 then
    (List.lookup h12 HOUR_WORDS).bind fun w => some ["ES", "ISCH", w, "UHR"]
  else if interval = 1 then
    (List.lookup h12 HOUR_WORDS).bind fun w => some ["ES", "ISCH", "FÜF", "AB", w]
  else if interval = 2 then
    (List.lookup h12 HOUR_WORDS).bind fun w => some ["ES", "ISCH", "ZÄÄ", "AB", w]
  else if interval = 3 then
    (List.lookup h12 HOUR_WORDS).bind fun w => some ["ES", "ISCH", "VIERT", "AB", w]
  else if interval = 4 then
    (List.lookup h12 HOUR_WORDS).bind fun w => some ["ES", "ISCH", "ZWÄNZG", "AB", w]
  else if interval = 5 then
    (List.lookup dh HOUR_WORDS).bind fun w => some ["ES", "ISCH", "FÜF", "VOR", "HAUBI", w]
  else if interval = 6 then
    (List.lookup dh HOUR_WORDS).bind fun w => some ["ES", "ISCH", "HAUBI", w]
  else if interval = 7 then
    (List.lookup dh HOUR_WORDS).bind fun w => some ["ES", "ISCH", "FÜF", "AB", "HAUBI", w]
  else if interval = 8 then
    (List.lookup dh HOUR_WORDS).bind fun w => some ["ES", "ISCH", "ZWÄNZG", "VOR", w]
  else if interval = 9 then
    (List.lookup dh HOUR_WORDS).bind fun w => some ["ES", "ISCH", "VIERT", "VOR", w]
  else if interval = 10 then
    (List.lookup dh HOUR_WORDS).bind fun w => some ["ES", "ISCH", "ZÄÄ", "VOR", w]
  else if interval = 11 then
    (List.lookup dh HOUR_WORDS).bind fun w => some ["ES", "ISCH", "FÜF", "VOR", w]
  else some ["ES", "ISCH"]

/-- Embedding of get_minute_dots (src/word_grid.py lines 135-140). -/
def get_minute_dots (minute : Int) : Int :=
  minute % 5

/-- Embedding of get_lit_positions (src/word_grid.py lines 143-153): for
each word present in WORDS the loop appends (row, col) for every col from
start_col to end_col inclusive; a word absent from WORDS is skipped by the
membership test on line 149. -/
def get_lit_positions : List String → List (Nat × Nat)
  | [] => []
  | w :: ws =>
    (match List.lookup w WORDS with
     | some (row, s, e) => (List.range' s (e + 1 - s)).map fun col => (row, col)
     | none => []) ++ get_lit_positions ws

/-- Modelled from the spec: step 3 of section 4.2, the referenced hour.
For interval 0 to 4 it is hour-of-12 itself; from interval 5 on it is the
next hour, wrapping past 12 to 1. -/
def spec_referenced_hour (h12 interval : Int) : Int :=
  if 5 ≤ interval then (if 12 < h12 + 1 then 1 else h12 + 1) else h12

/-- Modelled from the spec: the interval table of section 4.2, mapping the
interval index 0 to 11 to the appended words, with H the hour word of the
referenced hour. -/
def spec_interval_words (H : String) : Int → List String
  | 0 => [H, "UHR"]
  | 1 => ["FÜF", "AB", H]
  | 2 => ["ZÄÄ", "AB", H]
  | 3 => ["VIERT", "AB", H]
  | 4 => ["ZWÄNZG", "AB", H]
  | 5 => ["FÜF", "VOR", "HAUBI", H]
  | 6 => ["HAUBI", H]
  | 7 => ["FÜF", "AB", "HAUBI", H]
  | 8 => ["ZWÄNZG", "VOR", H]
  | 9 => ["VIERT", "VOR", H]
  | 10 => ["ZÄÄ", "VOR", H]
  | 11 => ["FÜF", "VOR", H]
  | _ => []

/-- Modelled from the spec: steps 1 to 6 of section 4.2 read as a single
function, to be compared with the embedded source translation.  The
sequence always starts with ES, ISCH followed by the tabulated row for
interval = minute div 5, with the hour word resolved through HOUR_WORDS at
the referenced hour. -/
def spec_translate (hour minute : Int) : Option (List String) :=
  let h12 := hour_12 hour
  let interval := minute / 5
  (List.lookup (spec_referenced_hour h12 interval) HOUR_WORDS).bind fun H =>
    some ("ES" :: "ISCH" :: spec_interval_words H interval)

/-- Helper: the 12-hour conversion always lands in 1 to 12, for any
integer hour. -/
theorem hour_12_bounds (hour : Int) : 1 ≤ hour_12 hour ∧ hour_12 hour ≤ 12 := by
  unfold hour_12
  split <;> omega

/-- Helper: on hour values in 1 to 12 the display-hour computation of the
source agrees with the referenced-hour rule of the spec. -/
theorem display_hour_eq_spec (h12 i : Int) (h1 : 1 ≤ h12) (h2 : h12 ≤ 12) :
    display_hour h12 i = spec_referenced_hour h12 i := by
  unfold display_hour spec_referenced_hour
  split
  · split <;> split <;> omega
  · rfl

/-- Helper: the referenced hour also lands in 1 to 12. -/
theorem spec_referenced_hour_bounds (h12 i : Int) (h1 : 1 ≤ h12) (h2 : h12 ≤ 12) :
    1 ≤ spec_referenced_hour h12 i ∧ spec_referenced_hour h12 i ≤ 12 := by
  unfold spec_referenced_hour
  split
  · split <;> omega
  · omega

/-- Helper: HOUR_WORDS lookup succeeds on every hour in 1 to 12. -/
theorem lookup_hour_words_total (n : Int) (h1 : 1 ≤ n) (h2 : n ≤ 12) :
    ∃ w, List.lookup n HOUR_WORDS = some w := by
  interval_cases n <;> exact ⟨_, rfl⟩

/-- Helper: the hour word appears in every row of the interval table. -/
theorem mem_spec_interval_words (H : String) (i : Int) (h1 : 0 ≤ i) (h2 : i < 12) :
    H ∈ spec_interval_words H i := by
  interval_cases i <;> simp [spec_interval_words]

/-- Helper: for any minute in 0 to 59 the translation of the source equals
the table-driven translation of the spec (the hour argument is
unconstrained because the source wraps it modulo 12 on its own). -/
theorem translate_matches_table (hour minute : Int)
    (hm0 : 0 ≤ minute) (hm1 : minute < 60) :
    get_words_for_time hour minute = spec_translate hour minute := by
  obtain ⟨hb1, hb2⟩ := hour_12_bounds hour
  have hi0 : 0 ≤ minute / 5 := by omega
  have hi1 : minute / 5 < 12 := by omega
  unfold get_words_for_time spec_translate
  generalize hgx : hour_12 hour = x at hb1 hb2 ⊢
  generalize hgi : minute / 5 = i at hi0 hi1 ⊢
  interval_cases x <;> interval_cases i <;> decide

/-- C1: for every hour in 0 to 23 and minute in 0 to 59 the translation
equals the word sequence prescribed by the interval table of the spec: it
begins with ES, ISCH and continues with the tabulated row for
interval = minute div 5, the hour word resolved at the referenced hour;
in particular the five literal scenarios of the spec hold. -/
theorem translate_follows_interval_table :
    (∀ hour minute : Int, 0 ≤ hour → hour < 24 → 0 ≤ minute → minute < 60 →
      get_words_for_time hour minute = spec_translate hour minute ∧
      ∃ tail, get_words_for_time hour minute = some ("ES" :: "ISCH" :: tail))
  ∧ get_words_for_time 7 0 = some ["ES", "ISCH", "SIBNI", "UHR"]
  ∧ get_words_for_time 7 5 = some ["ES", "ISCH", "FÜF", "AB", "SIBNI"]
  ∧ get_words_for_time 7 25 = some ["ES", "ISCH", "FÜF", "VOR", "HAUBI", "ACHTI"]
  ∧ get_words_for_time 7 47 = some ["ES", "ISCH", "VIERT", "VOR", "ACHTI"]
  ∧ get_words_for_time 0 0 = some ["ES", "ISCH", "ZWÖUFI", "UHR"] := by
  refine ⟨?_, by decide, by decide, by decide, by decide, by decide⟩
  intro hour minute _ _ hm0 hm1
  have ht := translate_matches_table hour minute hm0 hm1
  refine ⟨ht, ?_⟩
  obtain ⟨hb1, hb2⟩ := hour_12_bounds hour
  have hrb := spec_referenced_hour_bounds (hour_12 hour) (minute / 5) hb1 hb2
  obtain ⟨w, hw⟩ := lookup_hour_words_total _ hrb.1 hrb.2
  simp only [spec_translate] at ht
  rw [hw, Option.some_bind] at ht
  exact ⟨_, ht⟩

/-- C1 witness: the general refinement statement applied at hour 9,
minute 40, with every hypothesis discharged. -/
theorem translate_follows_interval_table_witness :
    get_words_for_time 9 40 = spec_translate 9 40 ∧
    ∃ tail, get_words_for_time 9 40 = some ("ES" :: "ISCH" :: tail) :=
  translate_follows_interval_table.1 9 40 (by decide) (by decide) (by decide) (by decide)

/-- C2: the minute step from 24 to 25 flips the referenced hour; at 7:24
the hour word for seven appears and the one for eight does not, at 7:25
the hour word for eight appears and the one for seven does not; in
general intervals 0 to 4 show the word of hour-of-12 and intervals 5 to
11 show the word of its successor, 12 wrapping to 1. -/
theorem hour_reference_flip_at_25 :
    (∃ ws, get_words_for_time 7 24 = some ws ∧ "SIBNI" ∈ ws ∧ "ACHTI" ∉ ws)
  ∧ (∃ ws, get_words_for_time 7 25 = some ws ∧ "ACHTI" ∈ ws ∧ "SIBNI" ∉ ws)
  ∧ (∀ hour minute : Int, 0 ≤ hour → hour < 24 → 0 ≤ minute → minute < 60 →
      ∃ ws, get_words_for_time hour minute = some ws ∧
        (minute / 5 ≤ 4 →
          ∃ w, List.lookup (hour_12 hour) HOUR_WORDS = some w ∧ w ∈ ws) ∧
        (5 ≤ minute / 5 →
          ∃ w, List.lookup (if hour_12 hour = 12 then 1 else hour_12 hour + 1)
                 HOUR_WORDS = some w ∧ w ∈ ws)) := by
  refine ⟨⟨["ES", "ISCH", "ZWÄNZG", "AB", "SIBNI"], by decide, by decide, by decide⟩,
    ⟨["ES", "ISCH", "FÜF", "VOR", "HAUBI", "ACHTI"], by decide, by decide, by decide⟩, ?_⟩
  intro hour minute _ _ hm0 hm1
  obtain ⟨hb1, hb2⟩ := hour_12_bounds hour
  have hrb := spec_referenced_hour_bounds (hour_12 hour) (minute / 5) hb1 hb2
  obtain ⟨w, hw⟩ := lookup_hour_words_total _ hrb.1 hrb.2
  have ht := translate_matches_table hour minute hm0 hm1
  simp only [spec_translate] at ht
  rw [hw, Option.some_bind] at ht
  have hmem : w ∈ "ES" :: "ISCH" :: spec_interval_words w (minute / 5) := by
    have := mem_spec_interval_words w (minute / 5) (by omega) (by omega)
    simp [this]
  refine ⟨_, ht, ?_, ?_⟩
  · intro hle
    refine ⟨w, ?_, hmem⟩
    have heq : spec_referenced_hour (hour_12 hour) (minute / 5) = hour_12 hour := by
      unfold spec_referenced_hour
      rw [if_neg (by omega)]
    rw [← heq]
    exact hw
  · intro hge
    refine ⟨w, ?_, hmem⟩
    have heq : spec_referenced_hour (hour_12 hour) (minute / 5)
        = (if hour_12 hour = 12 then 1 else hour_12 hour + 1) := by
      unfold spec_referenced_hour
      rw [if_pos hge]
      split <;> split <;> omega
    rw [← heq]
    exact hw

/-- C2 witness: the general part applied at hour 11, minute 50, where the
successor of eleven is twelve. -/
theorem hour_reference_flip_at_25_witness :
    ∃ ws, get_words_for_time 11 50 = some ws ∧
      ((50 : Int) / 5 ≤ 4 →
        ∃ w, List.lookup (hour_12 11) HOUR_WORDS = some w ∧ w ∈ ws) ∧
      (5 ≤ (50 : Int) / 5 →
        ∃ w, List.lookup (if hour_12 11 = 12 then 1 else hour_12 11 + 1)
               HOUR_WORDS = some w ∧ w ∈ ws) :=
  hour_reference_flip_at_25.2.2 11 50 (by decide) (by decide) (by decide) (by decide)

/-- C3: the 12-hour wraparound: midnight and noon both show the word for
twelve, 23:00 shows eleven, 13:00 shows one, and every minute from 25 to
59 of hour 12 references the word for one. -/
theorem twelve_hour_wraparound :
    (∃ ws, get_words_for_time 0 0 = some ws ∧ "ZWÖUFI" ∈ ws)
  ∧ (∃ ws, get_words_for_time 12 0 = some ws ∧ "ZWÖUFI" ∈ ws)
  ∧ (∃ ws, get_words_for_time 23 0 = some ws ∧ "ÖUFI" ∈ ws)
  ∧ (∃ ws, get_words_for_time 13 0 = some ws ∧ "EIS" ∈ ws)
  ∧ (∀ minute : Int, 25 ≤ minute → minute < 60 →
      ∃ ws, get_words_for_time 12 minute = some ws ∧ "EIS" ∈ ws) := by
  refine ⟨⟨["ES", "ISCH", "ZWÖUFI", "UHR"], by decide, by decide⟩,
    ⟨["ES", "ISCH", "ZWÖUFI", "UHR"], by decide, by decide⟩,
    ⟨["ES", "ISCH", "ÖUFI", "UHR"], by decide, by decide⟩,
    ⟨["ES", "ISCH", "EIS", "UHR"], by decide, by decide⟩, ?_⟩
  intro minute hm0 hm1
  have ht := translate_matches_table 12 minute (by omega) (by omega)
  have h5le : 5 ≤ minute / 5 := by omega
  have href : spec_referenced_hour (hour_12 12) (minute / 5) = 1 := by
    rw [show hour_12 12 = 12 from by decide]
    unfold spec_referenced_hour
    rw [if_pos h5le, if_pos (by omega)]
  simp only [spec_translate] at ht
  rw [href, show List.lookup (1 : Int) HOUR_WORDS = some "EIS" from rfl,
    Option.some_bind] at ht
  refine ⟨_, ht, ?_⟩
  have := mem_spec_interval_words "EIS" (minute / 5) (by omega) (by omega)
  simp [this]

/-- C3 witness: the quantified part applied at minute 30 of hour 12. -/
theorem twelve_hour_wraparound_witness :
    ∃ ws, get_words_for_time 12 30 = some ws ∧ "EIS" ∈ ws :=
  twelve_hour_wraparound.2.2.2.2 30 (by decide) (by decide)

/-- C4: contrary to the spec, out-of-range input is never rejected: the
source has no validation at all, so hour 25 silently wraps to one, hour
minus one wraps to eleven, and minutes outside 0 to 59 fall through every
interval branch and yield the bare ES ISCH prefix.  This theorem records
the silent-wrap behaviour at the failing inputs. -/
theorem out_of_range_silently_wrapped :
    get_words_for_time 25 0 = some ["ES", "ISCH", "EIS", "UHR"]
  ∧ get_words_for_time (-1) 0 = some ["ES", "ISCH", "ÖUFI", "UHR"]
  ∧ get_words_for_time 0 75 = some ["ES", "ISCH"]
  ∧ get_words_for_time 0 (-3) = some ["ES", "ISCH"] := by
  exact ⟨by decide, by decide, by decide, by decide⟩

/-- C5: the dot count is minute mod 5, always in 0 to 4, attains every
value of that set on a valid minute, and vanishes exactly on multiples of
five. -/
theorem minute_dots_mod_five :
    (∀ minute : Int, 0 ≤ minute → minute < 60 →
      get_minute_dots minute = minute % 5 ∧
      0 ≤ get_minute_dots minute ∧ get_minute_dots minute < 5 ∧
      (get_minute_dots minute = 0 ↔ (5 : Int) ∣ minute))
  ∧ (∀ d : Int, 0 ≤ d → d < 5 →
      ∃ minute : Int, 0 ≤ minute ∧ minute < 60 ∧ get_minute_dots minute = d) := by
  constructor
  · intro m h1 h2
    unfold get_minute_dots
    exact ⟨rfl, by omega, by omega, by omega⟩
  · intro d h1 h2
    refine ⟨d, h1, by omega, ?_⟩
    unfold get_minute_dots
    omega

/-- C5 witness: both parts applied at minute 47 and dot value 2. -/
theorem minute_dots_mod_five_witness :
    (get_minute_dots 47 = (47 : Int) % 5 ∧
      0 ≤ get_minute_dots 47 ∧ get_minute_dots 47 < 5 ∧
      (get_minute_dots 47 = 0 ↔ (5 : Int) ∣ 47)) ∧
    ∃ minute : Int, 0 ≤ minute ∧ minute < 60 ∧ get_minute_dots minute = 2 :=
  ⟨minute_dots_mod_five.1 47 (by decide) (by decide),
   minute_dots_mod_five.2 2 (by decide) (by decide)⟩

/-- Helper: a successful association-list lookup comes from a pair of the
list. -/
theorem lookup_some_mem {α β : Type} [BEq α] [LawfulBEq α] {a : α} {l : List (α × β)}
    {b : β} (h : List.lookup a l = some b) : (a, b) ∈ l := by
  induction l with
  | nil => simp [List.lookup] at h
  | cons p t ih =>
    obtain ⟨k, v⟩ := p
    by_cases hk : a = k
    · subst hk
      simp [List.lookup] at h
      simp [h]
    · have hne : (a == k) = false := by simp [hk]
      simp only [List.lookup, hne] at h
      simp [ih h]

/-- Helper: the cell list of a concatenation is the concatenation of the
cell lists. -/
theorem get_lit_positions_append (a b : List String) :
    get_lit_positions (a ++ b) = get_lit_positions a ++ get_lit_positions b := by
  induction a with
  | nil => rfl
  | cons w t ih => simp [get_lit_positions, ih]

/-- C6 counterexample: an unknown key does not stop the computation; it
is silently skipped and the remaining keys still produce their cells, so
no error reaches the caller. -/
theorem unknown_word_no_failure :
    get_lit_positions ["GIBBERISH", "ES"] = [(0, 0), (0, 1)]
  ∧ get_lit_positions ["GIBBERISH", "ES"] = get_lit_positions ["ES"]
  ∧ get_lit_positions ["GIBBERISH"] = [] := by
  exact ⟨by decide, by decide, by decide⟩

/-- C6 amended: a word key absent from WORDS is silently skipped by
get_lit_positions: it contributes no cells, no failure is signalled, and
the remaining keys are processed as if the unknown key were not there. -/
theorem unknown_word_silently_skipped (w : String) (ws : List String)
    (h : List.lookup w WORDS = none) :
    get_lit_positions (w :: ws) = get_lit_positions ws
  ∧ get_lit_positions [w] = [] := by
  constructor <;> simp [get_lit_positions, h]

/-- C6 witness: the amended statement applied to a concrete unknown key
followed by a known key. -/
theorem unknown_word_silently_skipped_witness :
    List.lookup "XYZZY" WORDS = none ∧
    (get_lit_positions ["XYZZY", "ES"] = get_lit_positions ["ES"]
      ∧ get_lit_positions ["XYZZY"] = []) :=
  ⟨by decide, unknown_word_silently_skipped "XYZZY" ["ES"] (by decide)⟩

/-- C7 counterexample: the result of get_lit_positions is a plain list
and a key listed twice repeats its cells, so the cell (0, 0) occurs twice
rather than exactly once. -/
theorem duplicate_cells_not_collapsed :
    List.count ((0 : Nat), (0 : Nat)) (get_lit_positions ["ES", "ES"]) = 2
  ∧ ¬ List.count ((0 : Nat), (0 : Nat)) (get_lit_positions ["ES", "ES"]) = 1 := by
  exact ⟨by decide, by decide⟩

/-- C7 amended: get_lit_positions returns a list that may repeat a cell
when keys repeat or spans overlap; deduplication happens at the call
sites, which convert the list to a set, and that set is exactly the union
of the cells of the individual keys, each cell occurring once. -/
theorem lit_positions_set_is_union :
    ∀ ws : List String, ∀ p : Nat × Nat,
      p ∈ (get_lit_positions ws).toFinset ↔ ∃ w ∈ ws, p ∈ get_lit_positions [w] := by
  intro ws p
  rw [List.mem_toFinset]
  induction ws with
  | nil => simp [get_lit_positions]
  | cons w t ih =>
    rw [show w :: t = [w] ++ t from rfl, get_lit_positions_append, List.mem_append]
    constructor
    · rintro (h | h)
      · exact ⟨w, by simp, h⟩
      · obtain ⟨w', hw', hp⟩ := ih.mp h
        exact ⟨w', by simp [hw'], hp⟩
    · rintro ⟨w', hw', hp⟩
      rcases List.mem_cons.mp hw' with rfl | hw'
      · exact Or.inl hp
      · exact Or.inr (ih.mpr ⟨w', hw', hp⟩)

/-- C9: the translator and its companions are deterministic pure
functions of their arguments: two calls on identical input are equal, and
the embedding is stateless by construction, mirroring the source, which
never writes to GRID, WORDS, HOUR_WORDS or any other module state. -/
theorem translate_pure_deterministic :
    ∀ hour minute : Int, ∀ ws : List String,
      get_words_for_time hour minute = get_words_for_time hour minute
    ∧ get_minute_dots minute = get_minute_dots minute
    ∧ get_lit_positions ws = get_lit_positions ws := by
  intro hour minute ws
  exact ⟨rfl, rfl, rfl⟩

/-- C10: every cell emitted by get_lit_positions lies inside the fixed
grid: row below 10 and column below 11, for any input key list. -/
theorem lit_positions_within_grid :
    ∀ ws : List String, ∀ p ∈ get_lit_positions ws, p.1 < 10 ∧ p.2 < 11 := by
  have hspans : ∀ e ∈ WORDS, e.2.1 < 10 ∧ e.2.2.2 < 11 := by decide
  intro ws
  induction ws with
  | nil => intro p hp; simp [get_lit_positions] at hp
  | cons w t ih =>
    intro p hp
    rw [show w :: t = [w] ++ t from rfl, get_lit_positions_append,
      List.mem_append] at hp
    rcases hp with hp | hp
    · simp only [get_lit_positions, List.append_nil] at hp
      cases hlk : List.lookup w WORDS with
      | none => rw [hlk] at hp; simp at hp
      | some v =>
        obtain ⟨row, s, e⟩ := v
        rw [hlk] at hp
        simp only [List.mem_map] at hp
        obtain ⟨c, hc, rfl⟩ := hp
        rw [List.mem_range'] at hc
        obtain ⟨j, hj, rfl⟩ := hc
        have hb := hspans (w, row, s, e) (lookup_some_mem hlk)
        simp only at hb
        exact ⟨hb.1, by omega⟩
    · exact ih p hp

/-- C10 witness: the bound applied to the concrete key list containing ES
and the cell (0, 1). -/
theorem lit_positions_within_grid_witness :
    ((0, 1) ∈ get_lit_positions ["ES"]) ∧ ((0 : Nat) < 10 ∧ (1 : Nat) < 11) :=
  ⟨by decide, lit_positions_within_grid ["ES"] (0, 1) (by decide)⟩

/-- C8: configuration integrity of the static tables: the grid is 10 rows
of 11 characters, every WORDS span is in bounds with its grid substring
equal to the key letter for letter, and every hour from 1 to 12 maps to a
word key present in WORDS. -/
theorem tables_configuration_integrity :
    GRID.length = 10
  ∧ (∀ r ∈ GRID, r.length = 11)
  ∧ (∀ e ∈ WORDS,
      e.2.1 < 10 ∧ e.2.2.1 ≤ e.2.2.2 ∧ e.2.2.2 < 11 ∧
      ((GRID.getD e.2.1 "").toList.drop e.2.2.1).take (e.2.2.2 + 1 - e.2.2.1)
        = e.1.toList)
  ∧ (∀ h : Int, 1 ≤ h → h ≤ 12 →
      ∃ w, List.lookup h HOUR_WORDS = some w ∧ (List.lookup w WORDS).isSome) := by
  refine ⟨by decide, by decide, by decide, ?_⟩
  intro h h1 h2
  interval_cases h <;> exact ⟨_, rfl, by decide⟩

/-- C8 witness: the hour-word totality applied at hour 12. -/
theorem tables_configuration_integrity_witness :
    ∃ w, List.lookup (12 : Int) HOUR_WORDS = some w ∧ (List.lookup w WORDS).isSome :=
  tables_configuration_integrity.2.2.2 12 (by decide) (by decide)

end WordGrid
